import Mathlib

/-!
Verification of `pushfold.py` (Push-Fold-Trainer): a shallow embedding of the
decision engine — the range parser, the heuristic hand-strength model, the
chart store, the EV estimator and the decision blender — together with
theorems settling the specification's claims about them.

Conventions of the embedding:
* Python floats are modelled as exact rationals (`ℚ`); decimal literals such
  as `0.85` denote the exact rational they print as.
* Python ints are `ℤ` (or `ℕ` for indices).
* Code that can raise an exception (`str.index` raising `ValueError`,
  indexing an empty string) is modelled with `Option`: `none` is a raised
  exception, `some v` a normal return of `v`.
* The process-wide random generator is modelled abstractly as an integer
  state threaded through `eval_spot_ev` (the only embedded function that
  touches it, via `random.seed`).
-/

namespace PushFold

/-- The `Spot` dataclass: the decision context, fields in source order. -/
structure Spot where
  stacks_bb : ℚ
  position : String
  players_left : ℤ
  action_before : String
  sb : ℚ
  bb : ℚ
  ante : ℚ
  bb_ante : Bool
  pko : Bool
  bounty_self : ℚ
  bounty_op : ℚ
  coverage : String
deriving DecidableEq

/-- The advice values computed by `advisor_mode` (lines 200-207): the hand,
the chart decision, both EVs, the EV decision and the final blended decision.
(The source's `Advice` dataclass also carries a free-form `notes` dict, which
`advisor_mode` never constructs; it is omitted here.) -/
structure Advice where
  hand : String
  decision_chart : String
  ev_push : ℚ
  ev_fold : ℚ
  decision_ev : String
  final : String
deriving DecidableEq

/-- The rank string `"AKQJT98765432"` used by `parse_hand_range`
(strongest first). -/
def ranksDesc : List Char := "AKQJT98765432".data

/-- The rank string `"23456789TJQKA"` used by `hand_strength_estimate`
(ascending strength). -/
def ranksAsc : List Char := "23456789TJQKA".data

/-- Python `str.index` on a list of characters: `some i` for the first
position of `c`, `none` when absent (Python raises `ValueError`). -/
def idxOf : Char → List Char → Option ℕ
  | _, [] => none
  | c, d :: ds => if c = d then some 0 else (idxOf c ds).map (· + 1)

/-- Python `str.split(",")` on a character list: splits at every comma,
keeping empty pieces. -/
def splitComma : List Char → List (List Char)
  | [] => [[]]
  | c :: rest =>
    match splitComma rest with
    | [] => [[]]
    | t :: ts => if c = ',' then [] :: t :: ts else (c :: t) :: ts

/-- One loop iteration of `parse_hand_range` (lines 62-75): the hands a
single token contributes.  A token containing `+` of length 3 takes the
first branch (`base = token[0:2]`, `s = token[2]`, sweep `ranks[idx::-1]`
over the index of `token[1]`); one of length 2 takes the pair branch
(sweep over the index of `token[0]`); anything else is appended verbatim.
`none` models `ranks.index` raising `ValueError`. -/
def expand_token (token : List Char) : Option (List (List Char)) :=
  if token = [] then some []
  else if token.contains '+' ∧ token.length = 3 then
    match token with
    | [a, b, s] =>
      (idxOf b ranksDesc).map (fun idx =>
        ((ranksDesc.take (idx + 1)).reverse).map (fun r => [a, r, s]))
    | _ => none
  else if token.contains '+' ∧ token.length = 2 then
    match token with
    | [a, _] =>
      (idxOf a ranksDesc).map (fun idx =>
        ((ranksDesc.take (idx + 1)).reverse).map (fun r => [r, r]))
    | _ => none
  else some [token]

/-- `parse_hand_range` (lines 53-76): strip spaces, split on commas, expand
each token, and de-duplicate (`list(set(hands))` — modelled as a `Finset`,
since the Python set iteration order is unspecified). -/
def parse_hand_range (range_str : String) : Option (Finset String) :=
  ((splitComma (range_str.data.filter (· ≠ ' '))).mapM expand_token).map
    (fun ls => (ls.flatten.map String.mk).toFinset)

/-- Python 3 `round` to an integer: round half to even. -/
def pyRound (q : ℚ) : ℤ :=
  if q - ⌊q⌋ < 0.5 then ⌊q⌋
  else if 0.5 < q - ⌊q⌋ then ⌊q⌋ + 1
  else if 2 ∣ ⌊q⌋ then ⌊q⌋ else ⌊q⌋ + 1

/-- A chart key: `(stack bucket, position, action_before)`. -/
abbrev ChartKey := ℤ × String × String

/-- A chart: the Python dict-of-dicts, modelled as association lists. -/
abbrev Chart := List (ChartKey × List (String × String))

/-- Association-list lookup (Python `dict` membership / `dict.get`). -/
def alookup {α β : Type} [DecidableEq α] : α → List (α × β) → Option β
  | _, [] => none
  | k, e :: rest => if k = e.1 then some e.2 else alookup k rest

/-- The built-in default chart returned by `load_chart` when no path is
given (lines 106-110). -/
def default_chart : Chart :=
  [((10, "SB", "none"), [("A2s", "PUSH"), ("A9o", "PUSH"), ("KTo", "FOLD")]),
   ((10, "BTN", "none"), [("A2s", "PUSH"), ("A8o", "PUSH"), ("K9s", "PUSH"), ("K9o", "FOLD")])]

/-- The key built by `eval_spot_chart`: `(int(round(spot.stacks_bb)),
spot.position, spot.action_before)`. -/
def chartKey (spot : Spot) : ChartKey :=
  (pyRound spot.stacks_bb, spot.position, spot.action_before)

/-- `eval_spot_chart` (lines 130-135): return the charted decision, or the
sentinel `"N/A"` when the key or the hand is absent.  Total: `dict.get`
with a default never raises. -/
def eval_spot_chart (hand : String) (spot : Spot) (chart : Chart) : String :=
  ((alookup (chartKey spot) chart).map
    (fun m => (alookup hand m).getD "N/A")).getD "N/A"

/-- `hand_strength_estimate` (lines 142-157).  `hand[0]` on an empty string
raises (`none`); `ranks.index(hand[0])` raises `ValueError` when the first
character is not a rank (`none`).  Otherwise: pocket pair
`0.85 + base*0.05`; `endswith("s")` gives `0.5 + base*0.4`;
`endswith("o")` gives `0.4 + base*0.35`; default `0.5`;
where `base = index/12`. -/
def hand_strength_estimate (hand : String) : Option ℚ :=
  (hand.data.head?).bind (fun c =>
    (idxOf c ranksAsc).bind (fun i =>
      let base : ℚ := i / 12
      if hand.data.length = 2 ∧ hand.data.get? 1 = some c then
        some (0.85 + base * 0.05)
      else if hand.data.getLast? = some 's' then some (0.5 + base * 0.4)
      else if hand.data.getLast? = some 'o' then some (0.4 + base * 0.35)
      else some 0.5))

/-- The call-probability expression of `eval_spot_ev` (line 166):
`min(0.25 + 0.05 * (9 - spot.players_left), 0.5)`. -/
def p_call (spot : Spot) : ℚ :=
  min (0.25 + 0.05 * (9 - (spot.players_left : ℚ))) 0.5

/-- The pre-flop pot expression of `eval_spot_ev` (line 167):
`spot.sb + spot.bb + (spot.bb if spot.bb_ante else spot.ante * spot.players_left)`. -/
def pot_pre (spot : Spot) : ℚ :=
  spot.sb + spot.bb +
    (if spot.bb_ante then spot.bb else spot.ante * (spot.players_left : ℚ))

/-- The effect of `if seed: random.seed(seed)` (lines 162-163) on the
global generator state: only a truthy seed (neither `None` nor `0`)
reseeds. -/
def seed_update (seed : Option ℤ) (rng : ℤ) : ℤ :=
  match seed with
  | none => rng
  | some s => if s = 0 then rng else s

set_option linter.unusedVariables false in
/-- `eval_spot_ev` (lines 160-176): the deterministic push/fold EV formula.
The generator state is threaded explicitly; the returned pair is `none`
when `hand_strength_estimate` raises.  The `iterations` parameter is
accepted and, as in the source, never used. -/
def eval_spot_ev (hand : String) (spot : Spot) (iterations : ℕ)
    (seed : Option ℤ) (rng : ℤ) : Option (ℚ × ℚ) × ℤ :=
  let rng2 := seed_update seed rng
  ((hand_strength_estimate hand).map (fun equity =>
    let ev_fold : ℚ := 0
    let ev_push := (1 - p_call spot) * pot_pre spot +
      p_call spot * (equity * (pot_pre spot + spot.stacks_bb) -
        (1 - equity) * spot.stacks_bb)
    let ev_push2 :=
      if spot.pko ∧ spot.coverage = "self" then
        ev_push + equity * spot.bounty_op / 10
      else ev_push
    (ev_push2, ev_fold)), rng2)

/-- The decision core of `advisor_mode` (lines 200-207): chart decision, EV
decision (`PUSH` iff `ev_push > ev_fold`), and the blended final decision
(`decision_chart`, overridden by `decision_ev` when the chart says `N/A`
or `abs(ev_push - ev_fold) > 0.15`). -/
def advise (hand : String) (spot : Spot) (chart : Chart) (iterations : ℕ)
    (seed : Option ℤ) (rng : ℤ) : Option Advice × ℤ :=
  (((eval_spot_ev hand spot iterations seed rng).1).map (fun p =>
    ⟨hand, eval_spot_chart hand spot chart, p.1, p.2,
      if p.1 > p.2 then "PUSH" else "FOLD",
      if eval_spot_chart hand spot chart = "N/A" ∨ |p.1 - p.2| > 0.15 then
        (if p.1 > p.2 then "PUSH" else "FOLD")
      else eval_spot_chart hand spot chart⟩),
    (eval_spot_ev hand spot iterations seed rng).2)

/-- The concrete spot of the specification's worked scenario: 10bb, SB,
8 players, no prior action, blinds 0.5/1, ante 0.125 as a big-blind ante,
no PKO. -/
def demo_spot : Spot :=
  ⟨10, "SB", 8, "none", 0.5, 1, 0.125, true, false, 0, 0, "none"⟩

/-- Evaluation lemma for `hand_strength_estimate` once the first character
and its rank index are known. -/
lemma hse_eval (hand : String) (c : Char) (i : ℕ)
    (hh : hand.data.head? = some c) (hi : idxOf c ranksAsc = some i) :
    hand_strength_estimate hand =
      if hand.data.length = 2 ∧ hand.data.get? 1 = some c then
        some (0.85 + (i : ℚ) / 12 * 0.05)
      else if hand.data.getLast? = some 's' then
        some (0.5 + (i : ℚ) / 12 * 0.4)
      else if hand.data.getLast? = some 'o' then
        some (0.4 + (i : ℚ) / 12 * 0.35)
      else some 0.5 := by
  unfold hand_strength_estimate
  rw [hh, Option.some_bind, hi, Option.some_bind]

/-- Evaluation lemma for `eval_spot_ev` when the strength estimate does not
raise: the returned EVs, with the PKO bounty written as an additive term. -/
lemma eval_spot_ev_eq (hand : String) (spot : Spot) (it : ℕ)
    (sd : Option ℤ) (rng : ℤ) (equity : ℚ)
    (he : hand_strength_estimate hand = some equity) :
    eval_spot_ev hand spot it sd rng =
      (some ((1 - p_call spot) * pot_pre spot +
          p_call spot * (equity * (pot_pre spot + spot.stacks_bb) -
            (1 - equity) * spot.stacks_bb) +
          (if spot.pko ∧ spot.coverage = "self" then
            equity * spot.bounty_op / 10 else 0), 0),
        seed_update sd rng) := by
  unfold eval_spot_ev
  rw [he]
  simp only [Option.map_some', Prod.mk.injEq, Option.some.injEq]
  refine ⟨⟨?_, trivial⟩, trivial⟩
  split_ifs with h <;> ring

lemma chartKey_demo : chartKey demo_spot = (10, "SB", "none") := by
  norm_num [chartKey, demo_spot, pyRound]

/-- A successful `idxOf` result is a position inside the list. -/
lemma idxOf_lt_length (c : Char) (l : List Char) (i : ℕ)
    (h : idxOf c l = some i) : i < l.length := by
  induction l generalizing i with
  | nil => simp [idxOf] at h
  | cons d ds ih =>
    rw [idxOf] at h
    split_ifs at h with hc
    · cases h
      simp
    · rcases Option.map_eq_some'.mp h with ⟨j, hj, rfl⟩
      simpa using Nat.succ_lt_succ (ih j hj)

/-- `pyRound` lands within half a unit of its argument. -/
lemma pyRound_close (q : ℚ) : |(pyRound q : ℚ) - q| ≤ 0.5 := by
  have h0 : (⌊q⌋ : ℚ) ≤ q := Int.floor_le q
  have h1 : q < ⌊q⌋ + 1 := Int.lt_floor_add_one q
  unfold pyRound
  split_ifs with ha hb hc <;>
    · rw [abs_le]
      constructor <;> push_cast <;> linarith

lemma hse_a2s : hand_strength_estimate "A2s" = some 0.9 := by
  rw [hse_eval "A2s" 'A' 12 rfl (by decide)]
  norm_num

/-- C9: the returned `(ev_push, ev_fold)` pair of `eval_spot_ev` does not
depend on the `iterations` argument, the `seed` argument, or the incoming
generator state. -/
theorem ev_deterministic (hand : String) (spot : Spot)
    (it₁ it₂ : ℕ) (sd₁ sd₂ : Option ℤ) (rng₁ rng₂ : ℤ) :
    (eval_spot_ev hand spot it₁ sd₁ rng₁).1 =
      (eval_spot_ev hand spot it₂ sd₂ rng₂).1 := rfl

/-- C3: `parse_hand_range` on the single token `"A9o+"` does NOT expand it:
a 4-character token matches neither plus-branch (they demand lengths 3
and 2), so the token is appended verbatim.  This contradicts the parser's
own docstring, which advertises support for `A2s+`-style tokens. -/
theorem range_nonpair_plus_unexpanded :
    parse_hand_range "A9o+" = some {"A9o+"} := by decide

/-- C4: `parse_hand_range` on the single token `"22+"` takes the length-3
non-pair branch (commented in the source as the `A9o+` branch): it fixes
the first character `2`, treats the trailing `+` as the suit tag, and
sweeps the second rank, producing 13 garbage tokens instead of the 13
pocket pairs.  The pair branch, commented as the `22+` branch, demands a
2-character token and can never fire on `22+`. -/
theorem range_pair_plus_misparsed :
    parse_hand_range "22+" =
      some {"22+", "23+", "24+", "25+", "26+", "27+", "28+", "29+",
            "2T+", "2J+", "2Q+", "2K+", "2A+"} := by decide

/-- C5 counterexample: on the 2-character token `"XY"`, whose first
character is not a rank, `hand_strength_estimate` raises `ValueError`
(`ranks.index` fails) — modelled as `none` — rather than returning the
default `0.5`. -/
theorem malformed_strength_cex :
    hand_strength_estimate "XY" = none ∧
      hand_strength_estimate "XY" ≠ some 0.5 := by
  constructor <;> decide

/-- C5 amended: a 2-character token whose FIRST character is a valid rank
and which is neither a pocket pair nor suffixed `s`/`o` falls through to
the default `0.5` without raising; but a token whose first character is
not a rank raises `ValueError` (modelled as `none`) instead. -/
theorem malformed_strength_amended (hand : String) (c : Char)
    (hh : hand.data.head? = some c) :
    (∀ i, idxOf c ranksAsc = some i → hand.data.length = 2 →
      hand.data.get? 1 ≠ some c → hand.data.getLast? ≠ some 's' →
      hand.data.getLast? ≠ some 'o' →
      hand_strength_estimate hand = some 0.5) ∧
    (idxOf c ranksAsc = none → hand_strength_estimate hand = none) := by
  constructor
  · intro i hi hlen hp hs ho
    rw [hse_eval hand c i hh hi, if_neg (fun hab => hp hab.2),
      if_neg hs, if_neg ho]
  · intro hi
    unfold hand_strength_estimate
    rw [hh, Option.some_bind, hi, Option.none_bind]

/-- C5 witness: the amended theorem applied to the concrete tokens `"2x"`
(valid first rank, no strength case: default 0.5) and `"XY"` (invalid
first rank: raises). -/
theorem malformed_strength_amended_witness :
    hand_strength_estimate "2x" = some 0.5 ∧
      hand_strength_estimate "XY" = none := by
  constructor
  · exact (malformed_strength_amended "2x" '2' rfl).1 0 (by decide)
      (by decide) (by decide) (by decide) (by decide)
  · exact (malformed_strength_amended "XY" 'X' rfl).2 (by decide)

/-- C1: the blending rule of `advisor_mode`.  Whenever `advise` returns an
advice, its chart decision is the chart lookup, its EV decision is `PUSH`
exactly when `ev_push > ev_fold` (ties fold), the final decision is the
chart decision when that is present and the EV margin is within `0.15`,
and the EV decision otherwise. -/
theorem blend_rule (hand : String) (spot : Spot) (chart : Chart)
    (it : ℕ) (sd : Option ℤ) (rng rng2 : ℤ) (a : Advice)
    (h : advise hand spot chart it sd rng = (some a, rng2)) :
    a.decision_chart = eval_spot_chart hand spot chart ∧
    a.decision_ev = (if a.ev_push > a.ev_fold then "PUSH" else "FOLD") ∧
    (a.decision_chart ≠ "N/A" → |a.ev_push - a.ev_fold| ≤ 0.15 →
      a.final = a.decision_chart) ∧
    (a.decision_chart = "N/A" ∨ |a.ev_push - a.ev_fold| > 0.15 →
      a.final = a.decision_ev) := by
  unfold advise at h
  rcases hev : (eval_spot_ev hand spot it sd rng).1 with _ | p
  · rw [hev] at h
    simp at h
  · rw [hev] at h
    simp only [Option.map_some', Prod.mk.injEq, Option.some.injEq] at h
    obtain ⟨ha, -⟩ := h
    subst ha
    refine ⟨rfl, rfl, ?_, ?_⟩
    · intro h1 h2
      show (if _ ∨ _ then _ else _) = _
      rw [if_neg]
      rintro (hc | hd)
      · exact h1 hc
      · exact absurd hd (not_lt.mpr h2)
    · intro h1
      show (if _ ∨ _ then _ else _) = _
      rw [if_pos h1]

/-- C1 witness: the blending theorem applied to the worked 10bb SB spot
with hand `A2s`, where the EV margin exceeds the threshold and the final
decision is the (agreeing) EV decision. -/
theorem blend_rule_witness :
    advise "A2s" demo_spot default_chart 10000 none 0 =
      (some ⟨"A2s", "PUSH", 4.825, 0, "PUSH", "PUSH"⟩, 0) ∧
    (⟨"A2s", "PUSH", 4.825, 0, "PUSH", "PUSH"⟩ : Advice).final =
      (⟨"A2s", "PUSH", 4.825, 0, "PUSH", "PUSH"⟩ : Advice).decision_ev := by
  have hev : eval_spot_ev "A2s" demo_spot 10000 none 0 = (some (4.825, 0), 0) := by
    rw [eval_spot_ev_eq "A2s" demo_spot 10000 none 0 0.9 hse_a2s]
    norm_num [p_call, pot_pre, demo_spot, seed_update]
  have hchart : eval_spot_chart "A2s" demo_spot default_chart = "PUSH" := by
    unfold eval_spot_chart
    rw [chartKey_demo]
    decide
  have hadv : advise "A2s" demo_spot default_chart 10000 none 0 =
      (some ⟨"A2s", "PUSH", 4.825, 0, "PUSH", "PUSH"⟩, 0) := by
    unfold advise
    rw [hev, hchart]
    norm_num
  have habs : (0.15 : ℚ) < |(4.825 : ℚ) - 0| := by
    rw [sub_zero, abs_of_nonneg] <;> norm_num
  exact ⟨hadv, (blend_rule "A2s" demo_spot default_chart 10000 none 0 0 _
    hadv).2.2.2 (Or.inr habs)⟩

/-- C2: the EV formula.  Whenever the strength estimate returns an equity,
`eval_spot_ev` returns `ev_fold = 0` and `ev_push` equal to the stated
call/fold mixture, with the PKO bounty term `equity * bounty_op / 10`
added exactly when `pko` is set and `coverage = "self"`; `p_call` and
`pot_pre` are the stated expressions, and `p_call` goes negative past 14
players since no lower bound is enforced. -/
theorem ev_formula (hand : String) (spot : Spot) (equity : ℚ) (it : ℕ)
    (sd : Option ℤ) (rng : ℤ)
    (he : hand_strength_estimate hand = some equity) :
    (eval_spot_ev hand spot it sd rng).1 =
      some ((1 - p_call spot) * pot_pre spot +
        p_call spot * (equity * (pot_pre spot + spot.stacks_bb) -
          (1 - equity) * spot.stacks_bb) +
        (if spot.pko ∧ spot.coverage = "self" then
          equity * spot.bounty_op / 10 else 0), 0) ∧
    p_call spot = min (0.25 + 0.05 * (9 - (spot.players_left : ℚ))) 0.5 ∧
    pot_pre spot = spot.sb + spot.bb +
      (if spot.bb_ante then spot.bb
       else spot.ante * (spot.players_left : ℚ)) ∧
    (14 < spot.players_left → p_call spot < 0) := by
  refine ⟨?_, rfl, rfl, ?_⟩
  · rw [eval_spot_ev_eq hand spot it sd rng equity he]
  · intro hp
    have h15 : (14 : ℚ) < (spot.players_left : ℚ) := by exact_mod_cast hp
    calc p_call spot ≤ 0.25 + 0.05 * (9 - (spot.players_left : ℚ)) :=
          min_le_left _ _
      _ < 0 := by linarith

/-- A PKO spot with 15 players left, used to witness both the bounty term
and the unclamped negative call probability. -/
def pko_spot : Spot :=
  ⟨10, "CO", 15, "none", 0.5, 1, 0.125, false, true, 0, 5, "self"⟩

/-- C2 witness: the EV-formula theorem applied to hand `A2s` in the
15-player PKO spot. -/
theorem ev_formula_witness :
    hand_strength_estimate "A2s" = some 0.9 ∧
    ((eval_spot_ev "A2s" pko_spot 10000 none 0).1 =
      some ((1 - p_call pko_spot) * pot_pre pko_spot +
        p_call pko_spot * (0.9 * (pot_pre pko_spot + pko_spot.stacks_bb) -
          (1 - 0.9) * pko_spot.stacks_bb) +
        (if pko_spot.pko ∧ pko_spot.coverage = "self" then
          0.9 * pko_spot.bounty_op / 10 else 0), 0) ∧
      p_call pko_spot =
        min (0.25 + 0.05 * (9 - (pko_spot.players_left : ℚ))) 0.5 ∧
      pot_pre pko_spot = pko_spot.sb + pko_spot.bb +
        (if pko_spot.bb_ante then pko_spot.bb
         else pko_spot.ante * (pko_spot.players_left : ℚ)) ∧
      (14 < pko_spot.players_left → p_call pko_spot < 0)) :=
  ⟨hse_a2s, ev_formula "A2s" pko_spot 0.9 10000 none 0 hse_a2s⟩

/-- C6: the worked scenario.  In the 10bb SB spot with a big-blind ante
and hand `A2s`: the default chart says `PUSH`, the equity is `0.9`,
`p_call = 0.3`, `pot_pre = 2.5`, `ev_push = 4.825`, `ev_fold = 0`, and the
final blended decision is `PUSH`. -/
theorem concrete_scenario :
    eval_spot_chart "A2s" demo_spot default_chart = "PUSH" ∧
    hand_strength_estimate "A2s" = some 0.9 ∧
    p_call demo_spot = 0.3 ∧
    pot_pre demo_spot = 2.5 ∧
    (eval_spot_ev "A2s" demo_spot 10000 none 0).1 = some (4.825, 0) ∧
    ((advise "A2s" demo_spot default_chart 10000 none 0).1.map
      Advice.final) = some "PUSH" := by
  have hev : eval_spot_ev "A2s" demo_spot 10000 none 0 = (some (4.825, 0), 0) := by
    rw [eval_spot_ev_eq "A2s" demo_spot 10000 none 0 0.9 hse_a2s]
    norm_num [p_call, pot_pre, demo_spot, seed_update]
  have hchart : eval_spot_chart "A2s" demo_spot default_chart = "PUSH" := by
    unfold eval_spot_chart
    rw [chartKey_demo]
    decide
  refine ⟨hchart, hse_a2s, by norm_num [p_call, demo_spot],
    by norm_num [pot_pre, demo_spot], by rw [hev], ?_⟩
  unfold advise
  rw [hev, hchart]
  norm_num

/-- C7: pocket-pair strengths.  For any two rank characters with ascending
indices `i₁, i₂`, the pair strength is `0.85 + i/12 * 0.05`, lies in
`[0.85, 0.9]`, and is strictly monotone in the index; the endpoints are
`strength(22) = 0.85` and `strength(AA) = 0.9`. -/
theorem pair_strength (c₁ c₂ : Char) (i₁ i₂ : ℕ)
    (h₁ : idxOf c₁ ranksAsc = some i₁) (h₂ : idxOf c₂ ranksAsc = some i₂) :
    hand_strength_estimate (String.mk [c₁, c₁]) =
      some (0.85 + (i₁ : ℚ) / 12 * 0.05) ∧
    hand_strength_estimate (String.mk [c₂, c₂]) =
      some (0.85 + (i₂ : ℚ) / 12 * 0.05) ∧
    0.85 ≤ 0.85 + (i₁ : ℚ) / 12 * 0.05 ∧
    0.85 + (i₁ : ℚ) / 12 * 0.05 ≤ 0.9 ∧
    (i₁ < i₂ →
      0.85 + (i₁ : ℚ) / 12 * 0.05 < 0.85 + (i₂ : ℚ) / 12 * 0.05) ∧
    hand_strength_estimate "22" = some 0.85 ∧
    hand_strength_estimate "AA" = some 0.9 := by
  have hb1 : (i₁ : ℚ) ≤ 12 := by
    have := idxOf_lt_length c₁ ranksAsc i₁ h₁
    have h13 : i₁ ≤ 12 := by
      have hlen : ranksAsc.length = 13 := by decide
      omega
    exact_mod_cast h13
  have hb0 : (0 : ℚ) ≤ (i₁ : ℚ) := by positivity
  refine ⟨?_, ?_, by linarith, by linarith, ?_, ?_, ?_⟩
  · rw [hse_eval (String.mk [c₁, c₁]) c₁ i₁ rfl h₁, if_pos ⟨rfl, rfl⟩]
  · rw [hse_eval (String.mk [c₂, c₂]) c₂ i₂ rfl h₂, if_pos ⟨rfl, rfl⟩]
  · intro hlt
    have : (i₁ : ℚ) < (i₂ : ℚ) := by exact_mod_cast hlt
    linarith
  · rw [hse_eval "22" '2' 0 rfl (by decide), if_pos ⟨rfl, rfl⟩]
    norm_num
  · rw [hse_eval "AA" 'A' 12 rfl (by decide), if_pos ⟨rfl, rfl⟩]
    norm_num

/-- C7 witness: the pocket-pair theorem applied to ranks `2` and `A`. -/
theorem pair_strength_witness :
    idxOf '2' ranksAsc = some 0 ∧ idxOf 'A' ranksAsc = some 12 ∧
    (hand_strength_estimate (String.mk ['2', '2']) =
        some (0.85 + (0 : ℚ) / 12 * 0.05) ∧
      hand_strength_estimate (String.mk ['A', 'A']) =
        some (0.85 + (12 : ℚ) / 12 * 0.05) ∧
      0.85 ≤ 0.85 + (0 : ℚ) / 12 * 0.05 ∧
      0.85 + (0 : ℚ) / 12 * 0.05 ≤ 0.9 ∧
      (0 < 12 →
        0.85 + (0 : ℚ) / 12 * 0.05 < 0.85 + (12 : ℚ) / 12 * 0.05) ∧
      hand_strength_estimate "22" = some 0.85 ∧
      hand_strength_estimate "AA" = some 0.9) :=
  ⟨by decide, by decide,
    pair_strength '2' 'A' 0 12 (by decide) (by decide)⟩

/-- C8: totality of the chart lookup.  The key's stack bucket is within
half a big blind of `stacks_bb` (nearest-integer rounding); when both the
key and the hand are present the mapped decision is returned, and when
either is absent the sentinel `N/A` is returned.  The embedding is a total
function: no case raises. -/
theorem chart_lookup_total (hand : String) (spot : Spot) (chart : Chart) :
    |(pyRound spot.stacks_bb : ℚ) - spot.stacks_bb| ≤ 0.5 ∧
    (∀ m d, alookup (chartKey spot) chart = some m →
      alookup hand m = some d → eval_spot_chart hand spot chart = d) ∧
    (alookup (chartKey spot) chart = none →
      eval_spot_chart hand spot chart = "N/A") ∧
    (∀ m, alookup (chartKey spot) chart = some m → alookup hand m = none →
      eval_spot_chart hand spot chart = "N/A") := by
  refine ⟨pyRound_close spot.stacks_bb, ?_, ?_, ?_⟩
  · intro m d hm hd
    unfold eval_spot_chart
    rw [hm, Option.map_some', hd]
    rfl
  · intro hm
    unfold eval_spot_chart
    rw [hm]
    rfl
  · intro m hm hd
    unfold eval_spot_chart
    rw [hm, Option.map_some', hd]
    rfl

/-- C8 witness: the lookup theorem applied to hand `KTo` in the 10bb SB
spot against the built-in default chart, where the charted decision is
`FOLD`. -/
theorem chart_lookup_total_witness :
    eval_spot_chart "KTo" demo_spot default_chart = "FOLD" := by
  have hm : alookup (chartKey demo_spot) default_chart =
      some [("A2s", "PUSH"), ("A9o", "PUSH"), ("KTo", "FOLD")] := by
    rw [chartKey_demo]
    decide
  exact (chart_lookup_total "KTo" demo_spot default_chart).2.1 _ "FOLD"
    hm (by decide)

/-- C10: implicit strength bound.  For every hand token whose first
character is a rank, the strength estimate succeeds and lands in
`[0.4, 0.9]`; pairs land in `[0.85, 0.9]`, suited tokens in `[0.5, 0.9]`,
offsuit tokens in `[0.4, 0.75]`, and every other such token yields
exactly `0.5`. -/
theorem strength_bounds (hand : String) (c : Char) (i : ℕ)
    (hh : hand.data.head? = some c) (hi : idxOf c ranksAsc = some i) :
    ∃ q, hand_strength_estimate hand = some q ∧ 0.4 ≤ q ∧ q ≤ 0.9 ∧
      ((hand.data.length = 2 ∧ hand.data.get? 1 = some c) →
        0.85 ≤ q ∧ q ≤ 0.9) ∧
      (¬(hand.data.length = 2 ∧ hand.data.get? 1 = some c) →
        hand.data.getLast? = some 's' → 0.5 ≤ q ∧ q ≤ 0.9) ∧
      (¬(hand.data.length = 2 ∧ hand.data.get? 1 = some c) →
        hand.data.getLast? ≠ some 's' → hand.data.getLast? = some 'o' →
        0.4 ≤ q ∧ q ≤ 0.75) ∧
      (¬(hand.data.length = 2 ∧ hand.data.get? 1 = some c) →
        hand.data.getLast? ≠ some 's' → hand.data.getLast? ≠ some 'o' →
        q = 0.5) := by
  have hb1 : (i : ℚ) ≤ 12 := by
    have := idxOf_lt_length c ranksAsc i hi
    have h13 : i ≤ 12 := by
      have hlen : ranksAsc.length = 13 := by decide
      omega
    exact_mod_cast h13
  have hb0 : (0 : ℚ) ≤ (i : ℚ) := by positivity
  rw [hse_eval hand c i hh hi]
  by_cases hp : hand.data.length = 2 ∧ hand.data.get? 1 = some c
  · rw [if_pos hp]
    exact ⟨_, rfl, by linarith, by linarith,
      fun _ => ⟨by linarith, by linarith⟩,
      fun hnp => absurd hp hnp, fun hnp _ _ => absurd hp hnp,
      fun hnp _ _ => absurd hp hnp⟩
  · rw [if_neg hp]
    by_cases hs : hand.data.getLast? = some 's'
    · rw [if_pos hs]
      exact ⟨_, rfl, by linarith, by linarith,
        fun hp2 => absurd hp2 hp,
        fun _ _ => ⟨by linarith, by linarith⟩,
        fun _ hs2 _ => absurd hs hs2, fun _ hs2 _ => absurd hs hs2⟩
    · rw [if_neg hs]
      by_cases ho : hand.data.getLast? = some 'o'
      · rw [if_pos ho]
        exact ⟨_, rfl, by linarith, by linarith,
          fun hp2 => absurd hp2 hp, fun _ hs2 => absurd hs2 hs,
          fun _ _ _ => ⟨by linarith, by linarith⟩,
          fun _ _ ho2 => absurd ho ho2⟩
      · rw [if_neg ho]
        exact ⟨_, rfl, by norm_num, by norm_num,
          fun hp2 => absurd hp2 hp, fun _ hs2 => absurd hs2 hs,
          fun _ _ ho2 => absurd ho2 ho, fun _ _ _ => rfl⟩

/-- C10 witness: the bounds theorem applied to the offsuit hand `72o`. -/
theorem strength_bounds_witness :
    ∃ q, hand_strength_estimate "72o" = some q ∧ 0.4 ≤ q ∧ q ≤ 0.9 ∧
      (("72o".data.length = 2 ∧ "72o".data.get? 1 = some '7') →
        0.85 ≤ q ∧ q ≤ 0.9) ∧
      (¬("72o".data.length = 2 ∧ "72o".data.get? 1 = some '7') →
        "72o".data.getLast? = some 's' → 0.5 ≤ q ∧ q ≤ 0.9) ∧
      (¬("72o".data.length = 2 ∧ "72o".data.get? 1 = some '7') →
        "72o".data.getLast? ≠ some 's' → "72o".data.getLast? = some 'o' →
        0.4 ≤ q ∧ q ≤ 0.75) ∧
      (¬("72o".data.length = 2 ∧ "72o".data.get? 1 = some '7') →
        "72o".data.getLast? ≠ some 's' → "72o".data.getLast? ≠ some 'o' →
        q = 0.5) :=
  strength_bounds "72o" '7' 5 rfl (by decide)

end PushFold
